import Mathlib

/-! ComboTx (core/types/tx_combo.go)

A shallow embedding of the `ComboTx` transaction variant.

Go pointers (`*big.Int`, `*common.Address`, `*common.Hash`) and byte slices
refer to mutable storage, so the embedding carries an explicit heap: a pointer
is an index into one of the heap's stores, `nil` is `none`, allocation appends
a cell, and every operation passes the heap along.  A run-time panic is a
result of its own (`Outcome.panics`), distinct from every returned value.

The receiver `tx *ComboTx` is passed as the struct value it points to; the one
method that assigns to the receiver's fields returns the updated struct.
-/

namespace types

/-! ## Results, heap and values -/

/-- Result of running a Go function: it returns a value or it panics. -/
inductive Outcome (α : Type) where
  | returns (a : α)
  | panics (msg : String)
  deriving DecidableEq, Repr

/-- Sequencing: a panic aborts everything after it. -/
def Outcome.bind {α β : Type} (x : Outcome α) (f : α → Outcome β) : Outcome β :=
  match x with
  | .returns a => f a
  | .panics msg => .panics msg

instance : Monad Outcome where
  pure := Outcome.returns
  bind := Outcome.bind

/-- Whether a run ended in a normal return. -/
def Outcome.isReturn {α : Type} : Outcome α → Bool
  | .returns _ => true
  | .panics _ => false

/-- A heap address; `Option Ptr` is a Go pointer, `none` being `nil`. -/
abbrev Ptr := Nat

/-- One byte. -/
abbrev Byte := Fin 256

namespace common

/-- The 20-byte array `common.Address`, as the number its bytes spell. -/
abbrev Address := Fin (2 ^ 160)

/-- The 32-byte array `common.Hash`, as the number its bytes spell. -/
abbrev Hash := Fin (2 ^ 256)

end common

/-- A non-nil Go byte slice: a window of `len` bytes starting at offset `off`
of the backing array `arr`.  The nil slice is `none : Option Slice`. -/
structure Slice where
  arr : Ptr
  off : Nat
  len : Nat
  deriving DecidableEq, Repr

/-- The heap: the cells of all allocated big integers, addresses, hashes and
byte arrays. -/
structure Heap where
  ints : List Int
  addrs : List common.Address
  hashes : List common.Hash
  bytes : List (List Byte)
  deriving DecidableEq

/-- The number held by the big integer at `p`. -/
def Heap.readInt (h : Heap) (p : Ptr) : Int := h.ints.getD p 0

/-- The address stored at `p`. -/
def Heap.readAddr (h : Heap) (p : Ptr) : common.Address := h.addrs.getD p 0

/-- The hash stored at `p`. -/
def Heap.readHash (h : Heap) (p : Ptr) : common.Hash := h.hashes.getD p 0

/-- The bytes a slice shows. -/
def Heap.readSlice (h : Heap) (s : Slice) : List Byte :=
  ((h.bytes.getD s.arr []).drop s.off).take s.len

/-- In-place change of the big integer at `p` to `v`. -/
def Heap.writeInt (h : Heap) (p : Ptr) (v : Int) : Heap :=
  { h with ints := h.ints.set p v }

/-- In-place change of the address at `p` to `a` (`*p = a`). -/
def Heap.writeAddr (h : Heap) (p : Ptr) (a : common.Address) : Heap :=
  { h with addrs := h.addrs.set p a }

/-- In-place change of one byte of a slice (`s[i] = b`). -/
def Heap.writeByte (h : Heap) (s : Slice) (i : Nat) (b : Byte) : Heap :=
  { h with bytes := h.bytes.set s.arr ((h.bytes.getD s.arr []).set (s.off + i) b) }

/-- A pointer is nil or below the allocation mark `n`. -/
def okPtr (n : Nat) : Option Ptr → Prop
  | none => True
  | some p => p < n

instance (n : Nat) (p : Option Ptr) : Decidable (okPtr n p) := by
  cases p <;> unfold okPtr <;> infer_instance

/-- A slice is nil or a window inside an allocated backing array. -/
def Heap.okSlice (h : Heap) : Option Slice → Prop
  | none => True
  | some s => s.arr < h.bytes.length ∧ s.off + s.len ≤ (h.bytes.getD s.arr []).length

instance (h : Heap) (s : Option Slice) : Decidable (h.okSlice s) := by
  cases s <;> unfold Heap.okSlice <;> infer_instance

namespace big

/-- Go's `new(big.Int)`: a fresh big integer holding zero. -/
def newInt (h : Heap) : Heap × Ptr :=
  ({ h with ints := h.ints ++ [0] }, h.ints.length)

/-- Go's `(z *big.Int).Set(x)` from math/big:
`if z != x { z.abs = z.abs.set(x.abs); z.neg = x.neg }; return z`.
With `z == x` nothing is read or written; otherwise both pointers are
dereferenced, and dereferencing nil panics. -/
def Int.Set (h : Heap) (z x : Option Ptr) : Outcome (Heap × Option Ptr) :=
  if z = x then .returns (h, z)
  else
    match z, x with
    | some pz, some px => .returns (h.writeInt pz (h.readInt px), z)
    | _, _ => .panics "invalid memory address or nil pointer dereference"

end big

namespace common

/-- Modelled from the spec: `common.CopyBytes` is not among the sources.  The
spec (4.2) has the payload bytes deep-duplicated into new backing storage, not
a shared view; an absent payload stays absent. -/
def CopyBytes (h : Heap) (b : Option Slice) : Heap × Option Slice :=
  match b with
  | none => (h, none)
  | some s =>
    ({ h with bytes := h.bytes ++ [h.readSlice s] }, some ⟨h.bytes.length, 0, s.len⟩)

end common

/-- Modelled from the spec: `copyAddressPtr` is not among the sources.  The
spec (2, 4.2) has the optional address field deep-duplicated, an ownership-safe
copy in storage of its own; an absent address stays absent. -/
def copyAddressPtr (h : Heap) (a : Option Ptr) : Heap × Option Ptr :=
  match a with
  | none => (h, none)
  | some p => ({ h with addrs := h.addrs ++ [h.readAddr p] }, some h.addrs.length)

/-! ## The transaction -/

/-- The struct `ComboTx`.  `uint64` fields are natural numbers (they are only
copied, never computed with). -/
structure ComboTx where
  BlockHash : Option Ptr
  BlockNumber : Nat
  From : Option Ptr
  Nonce : Nat
  GasPrice : Option Ptr
  Gas : Nat
  Hash : Option Ptr
  Input : Option Slice
  TransactionIndex : Nat
  To : Option Ptr
  Value : Option Ptr
  Data : Option Slice
  V : Option Ptr
  R : Option Ptr
  S : Option Ptr
  SourceHash : Option Ptr
  Mint : Option Ptr
  deriving DecidableEq, Repr

/-- Every pointer and slice of `tx` refers to allocated storage of `h`, as is
the case for every value a Go program can hold. -/
def ComboTx.Valid (h : Heap) (tx : ComboTx) : Prop :=
  okPtr h.hashes.length tx.BlockHash ∧ okPtr h.addrs.length tx.From ∧
  okPtr h.ints.length tx.GasPrice ∧ okPtr h.hashes.length tx.Hash ∧
  h.okSlice tx.Input ∧ okPtr h.addrs.length tx.To ∧
  okPtr h.ints.length tx.Value ∧ h.okSlice tx.Data ∧
  okPtr h.ints.length tx.V ∧ okPtr h.ints.length tx.R ∧
  okPtr h.ints.length tx.S ∧ okPtr h.hashes.length tx.SourceHash ∧
  okPtr h.ints.length tx.Mint

instance (h : Heap) (tx : ComboTx) : Decidable (tx.Valid h) := by
  unfold ComboTx.Valid; infer_instance

/-- The `if src != nil { dst.Set(src) }` statement of `copy`; it yields the
heap after the statement. -/
def setIfPresent (h : Heap) (dst src : Option Ptr) : Outcome Heap :=
  if src ≠ none then
    match big.Int.Set h dst src with
    | .returns r => .returns r.1
    | .panics msg => .panics msg
  else .returns h

/-- Go `func (tx *ComboTx) copy() TxData`: the composite literal is built first
(its fields in source order), then the five guarded `Set` calls run. -/
def ComboTx.copy (h : Heap) (tx : ComboTx) : Outcome (Heap × ComboTx) := do
  let (h, toCpy) := copyAddressPtr h tx.To
  let (h, data) := common.CopyBytes h tx.Data
  let (h, value) := big.newInt h
  let (h, gasPrice) := big.newInt h
  let (h, v) := big.newInt h
  let (h, r) := big.newInt h
  let (h, s) := big.newInt h
  let cpy : ComboTx :=
    { BlockHash := none, BlockNumber := 0, From := none, Nonce := tx.Nonce,
      GasPrice := some gasPrice, Gas := tx.Gas, Hash := none, Input := none,
      TransactionIndex := 0, To := toCpy, Value := some value, Data := data,
      V := some v, R := some r, S := some s, SourceHash := none, Mint := none }
  let h ← setIfPresent h cpy.Value tx.Value
  let h ← setIfPresent h cpy.GasPrice tx.GasPrice
  let h ← setIfPresent h cpy.V tx.V
  let h ← setIfPresent h cpy.R tx.R
  let h ← setIfPresent h cpy.S tx.S
  return (h, cpy)

/-! ## Accessors -/

/-- An entry of an access list (declared with the access-list variant). -/
structure AccessTuple where
  Address : common.Address
  StorageKeys : List common.Hash
  deriving DecidableEq

/-- The slice type `AccessList`; `none` is the nil list. -/
abbrev AccessList := Option (List AccessTuple)

/-- Go `txType`: the constant `ComboTxType`, declared outside this file and
passed in. -/
def ComboTx.txType (ComboTxType : Byte) (_tx : ComboTx) : Byte := ComboTxType

/-- Modelled from the spec: `deriveChainId` is not among the sources.  Spec
4.3: a `V` that encodes a chain id, that is `35 + 2 * chainID` plus 0 or 1,
gives that chain id; every other `V` gives the zero chain id. -/
def chainIdOf (v : Int) : Int := if 35 ≤ v then (v - 35) / 2 else 0

/-- Modelled from the spec: `deriveChainId` is not among the sources.  It
returns a new big integer holding `chainIdOf` of the number behind `v`; an
absent `v` is read as no chain id (spec 7), the zero chain id. -/
def deriveChainId (h : Heap) (v : Option Ptr) : Outcome (Heap × Option Ptr) :=
  let id : Int :=
    match v with
    | none => 0
    | some p => chainIdOf (h.readInt p)
  .returns ({ h with ints := h.ints ++ [id] }, some h.ints.length)

/-- Go `chainID() = deriveChainId(tx.V)`. -/
def ComboTx.chainID (h : Heap) (tx : ComboTx) : Outcome (Heap × Option Ptr) :=
  deriveChainId h tx.V

/-- Go `accessList() = nil`. -/
def ComboTx.accessList (_tx : ComboTx) : AccessList := none

/-- Go `data() = tx.Data`. -/
def ComboTx.data (tx : ComboTx) : Option Slice := tx.Data

/-- Go `gas() = tx.Gas`. -/
def ComboTx.gas (tx : ComboTx) : Nat := tx.Gas

/-- Go `gasPrice() = tx.GasPrice`. -/
def ComboTx.gasPrice (tx : ComboTx) : Option Ptr := tx.GasPrice

/-- Go `gasTipCap() = tx.GasPrice`. -/
def ComboTx.gasTipCap (tx : ComboTx) : Option Ptr := tx.GasPrice

/-- Go `gasFeeCap() = tx.GasPrice`. -/
def ComboTx.gasFeeCap (tx : ComboTx) : Option Ptr := tx.GasPrice

/-- Go `value() = tx.Value`. -/
def ComboTx.value (tx : ComboTx) : Option Ptr := tx.Value

/-- Go `nonce() = tx.Nonce`. -/
def ComboTx.nonce (tx : ComboTx) : Nat := tx.Nonce

/-- Go `to() = tx.To`. -/
def ComboTx.to (tx : ComboTx) : Option Ptr := tx.To

/-- Go `effectiveGasPrice(dst, baseFee) = dst.Set(tx.GasPrice)`. -/
def ComboTx.effectiveGasPrice (h : Heap) (tx : ComboTx) (dst _baseFee : Option Ptr) :
    Outcome (Heap × Option Ptr) :=
  big.Int.Set h dst tx.GasPrice

/-- Go `rawSignatureValues() = (tx.V, tx.R, tx.S)`. -/
def ComboTx.rawSignatureValues (tx : ComboTx) : Option Ptr × Option Ptr × Option Ptr :=
  (tx.V, tx.R, tx.S)

/-- Go `setSignatureValues(chainID, v, r, s)`: `tx.V, tx.R, tx.S = v, r, s`; the
updated receiver is returned. -/
def ComboTx.setSignatureValues (tx : ComboTx) (_chainID v r s : Option Ptr) : ComboTx :=
  { tx with V := v, R := r, S := s }

/-- A Go `error` value; `none` is the nil error. -/
abbrev GoError := Option String

/-- Go `encode(*bytes.Buffer) error`: the body is a single `panic`.  The buffer
is given by its contents, `none` for a nil pointer. -/
def ComboTx.encode (_tx : ComboTx) (_w : Option (List Byte)) : Outcome GoError :=
  .panics "encode called on ComboTx"

/-- Go `decode([]byte) error`: the body is a single `panic`. -/
def ComboTx.decode (_tx : ComboTx) (_input : Option (List Byte)) : Outcome GoError :=
  .panics "decode called on ComboTx)"

/-! ## Reading a transaction -/

/-- The number behind an optional big-integer pointer, `none` for nil. -/
def Heap.intAt (h : Heap) (p : Option Ptr) : Option Int := p.map h.readInt

/-- The address behind an optional pointer, `none` for nil. -/
def Heap.addrAt (h : Heap) (p : Option Ptr) : Option common.Address := p.map h.readAddr

/-- The hash behind an optional pointer, `none` for nil. -/
def Heap.hashAt (h : Heap) (p : Option Ptr) : Option common.Hash := p.map h.readHash

/-- The bytes of an optional slice, `none` for the nil slice. -/
def Heap.sliceAt (h : Heap) (s : Option Slice) : Option (List Byte) := s.map h.readSlice

/-- A slice as a byte sequence: the nil slice is the empty sequence. -/
def Heap.bytesOf (h : Heap) (s : Option Slice) : List Byte := (h.sliceAt s).getD []

/-- Everything that can be read through a transaction. -/
structure Contents where
  BlockHash : Option common.Hash
  BlockNumber : Nat
  From : Option common.Address
  Nonce : Nat
  GasPrice : Option Int
  Gas : Nat
  Hash : Option common.Hash
  Input : Option (List Byte)
  TransactionIndex : Nat
  To : Option common.Address
  Value : Option Int
  Data : Option (List Byte)
  V : Option Int
  R : Option Int
  S : Option Int
  SourceHash : Option common.Hash
  Mint : Option Int
  deriving DecidableEq

/-- All fields of `tx` with every pointer and slice followed into `h`. -/
def ComboTx.contents (h : Heap) (tx : ComboTx) : Contents :=
  { BlockHash := h.hashAt tx.BlockHash, BlockNumber := tx.BlockNumber,
    From := h.addrAt tx.From, Nonce := tx.Nonce, GasPrice := h.intAt tx.GasPrice,
    Gas := tx.Gas, Hash := h.hashAt tx.Hash, Input := h.sliceAt tx.Input,
    TransactionIndex := tx.TransactionIndex, To := h.addrAt tx.To,
    Value := h.intAt tx.Value, Data := h.sliceAt tx.Data, V := h.intAt tx.V,
    R := h.intAt tx.R, S := h.intAt tx.S, SourceHash := h.hashAt tx.SourceHash,
    Mint := h.intAt tx.Mint }

/-! ## The scenario of the spec -/

/-- A heap holding the big integers 10, 100, 37, 1, 2, one address and the
payload bytes 1, 2, 3. -/
def scenarioHeap : Heap :=
  { ints := [10, 100, 37, 1, 2], addrs := [7], hashes := [], bytes := [[1, 2, 3]] }

/-- The spec's instance: Nonce 5, Gas 21000, GasPrice 10, Value 100, V 37,
R 1, S 2. -/
def scenarioTx : ComboTx :=
  { BlockHash := none, BlockNumber := 0, From := none, Nonce := 5,
    GasPrice := some 0, Gas := 21000, Hash := none, Input := none,
    TransactionIndex := 0, To := some 0, Value := some 1, Data := some ⟨0, 0, 3⟩,
    V := some 2, R := some 3, S := some 4, SourceHash := none, Mint := none }

/-- The scenario's instance with GasPrice, Value, V, R and S all nil. -/
def bareTx : ComboTx :=
  { scenarioTx with GasPrice := none, Value := none, V := none, R := none, S := none }

/-- The scenario's instance with a nil GasPrice. -/
def noGasPriceTx : ComboTx := { scenarioTx with GasPrice := none }

/-! ## What `copy` builds -/

/-- The number `copy` leaves in a fresh big integer: the source's, or zero for
a nil source. -/
def Heap.intOrZero (h : Heap) (p : Option Ptr) : Int := (h.intAt p).getD 0

/-- The heap `copy` leaves behind: the old cells untouched, followed by the
new cells. -/
def copyHeap (h : Heap) (tx : ComboTx) : Heap :=
  { ints := h.ints ++ [h.intOrZero tx.Value, h.intOrZero tx.GasPrice, h.intOrZero tx.V,
      h.intOrZero tx.R, h.intOrZero tx.S],
    addrs := h.addrs ++ (h.addrAt tx.To).toList,
    hashes := h.hashes,
    bytes := h.bytes ++ (h.sliceAt tx.Data).toList }

/-- The struct `copy` returns. -/
def copyStruct (h : Heap) (tx : ComboTx) : ComboTx :=
  { BlockHash := none, BlockNumber := 0, From := none, Nonce := tx.Nonce,
    GasPrice := some (h.ints.length + 1), Gas := tx.Gas, Hash := none, Input := none,
    TransactionIndex := 0, To := tx.To.map (fun _ => h.addrs.length),
    Value := some h.ints.length,
    Data := tx.Data.map (fun s => ⟨h.bytes.length, 0, s.len⟩),
    V := some (h.ints.length + 2), R := some (h.ints.length + 3),
    S := some (h.ints.length + 4), SourceHash := none, Mint := none }

/-- The heap after `if src != nil { d.Set(src) }` for a non-nil `d`. -/
def setCell (h : Heap) (d : Ptr) (src : Option Ptr) : Heap :=
  match src with
  | none => h
  | some p => h.writeInt d (h.readInt p)

/-- The heap once the composite literal of `copy` is built: one new address
and one new byte array when the source has them, and five zero big integers. -/
def copyAlloc (h : Heap) (tx : ComboTx) : Heap :=
  { ints := h.ints ++ [0, 0, 0, 0, 0],
    addrs := h.addrs ++ (h.addrAt tx.To).toList,
    hashes := h.hashes,
    bytes := h.bytes ++ (h.sliceAt tx.Data).toList }

/-- The heap after the five guarded `Set` calls of `copy`. -/
def copyFill (h : Heap) (tx : ComboTx) : Heap :=
  setCell (setCell (setCell (setCell (setCell (copyAlloc h tx)
    h.ints.length tx.Value) (h.ints.length + 1) tx.GasPrice) (h.ints.length + 2) tx.V)
    (h.ints.length + 3) tx.R) (h.ints.length + 4) tx.S

/-- What `copy` does, seen on the contents: Nonce, Gas, the address behind To
and the bytes behind Data are kept, the five big integers become present
(zero where they were nil), every other field is dropped. -/
def Contents.copied (c : Contents) : Contents :=
  { BlockHash := none, BlockNumber := 0, From := none, Nonce := c.Nonce,
    GasPrice := some (c.GasPrice.getD 0), Gas := c.Gas, Hash := none, Input := none,
    TransactionIndex := 0, To := c.To, Value := some (c.Value.getD 0), Data := c.Data,
    V := some (c.V.getD 0), R := some (c.R.getD 0), S := some (c.S.getD 0),
    SourceHash := none, Mint := none }

/-- The scenario's instance with provenance fields set and an Input payload
(the bytes 2, 3 of the first byte array). -/
def importedTx : ComboTx :=
  { BlockHash := none, BlockNumber := 9, From := some 0, Nonce := 5,
    GasPrice := some 0, Gas := 21000, Hash := none, Input := some ⟨0, 1, 2⟩,
    TransactionIndex := 4, To := some 0, Value := some 1, Data := some ⟨0, 0, 3⟩,
    V := some 2, R := some 3, S := some 4, SourceHash := none, Mint := some 1 }

/-! ## `copy` in closed form -/

/-- Between two non-nil pointers `Set` stores the source's number in the
destination, also when they are the same pointer. -/
theorem Set_some (h : Heap) (pz px : Ptr) :
    big.Int.Set h (some pz) (some px) = .returns (h.writeInt pz (h.readInt px), some pz) := by
  unfold big.Int.Set
  split
  · next heq =>
    cases heq
    congr 2
    cases h with
    | mk ints addrs hashes bytes =>
      simp only [Heap.writeInt, Heap.readInt, Heap.mk.injEq, and_true, true_and]
      apply List.ext_getElem?
      intro i
      by_cases hi : pz = i
      · subst hi
        by_cases hl : pz < ints.length
        · simp [List.getElem?_set, hl, List.getD_eq_getElem?_getD]
        · simp [List.getElem?_set, hl]
          exact Nat.le_of_not_lt hl
      · simp [List.getElem?_set, hi]
  · rfl

theorem setIfPresent_some (h : Heap) (d : Ptr) (src : Option Ptr) :
    setIfPresent h (some d) src = .returns (setCell h d src) := by
  cases src with
  | none => simp [setIfPresent, setCell]
  | some p => simp [setIfPresent, Set_some, setCell]

theorem getD_append_left {α : Type} (l r : List α) (p : Nat) (d : α) (hp : p < l.length) :
    (l ++ r).getD p d = l.getD p d := by
  simp [List.getD_eq_getElem?_getD, List.getElem?_append_left hp]

theorem set_getD_self {α : Type} (l : List α) (k : Nat) (d : α) :
    l.set k (l.getD k d) = l := by
  apply List.ext_getElem?
  intro i
  by_cases hi : k = i
  · subst hi
    by_cases hl : k < l.length
    · simp [List.getElem?_set, hl, List.getD_eq_getElem?_getD]
    · simp [List.getElem?_set, hl]
      exact Nat.le_of_not_lt hl
  · simp [List.getElem?_set, hi]

/-- Filling the `k`-th fresh cell from a source that lives among the old
cells. -/
theorem setCell_fresh (a : List common.Address) (hs : List common.Hash) (b : List (List Byte))
    (base suf : List Int) (k : Nat) (src : Option Ptr)
    (h0 : suf.getD k 0 = 0) (hsrc : okPtr base.length src) :
    setCell ⟨base ++ suf, a, hs, b⟩ (base.length + k) src =
      ⟨base ++ suf.set k (Heap.intOrZero ⟨base, a, hs, b⟩ src), a, hs, b⟩ := by
  cases src with
  | none =>
    simp only [setCell, Heap.intOrZero, Heap.intAt, Option.map_none', Option.getD_none]
    rw [← h0, set_getD_self]
  | some p =>
    have hp : p < base.length := hsrc
    simp only [setCell, Heap.writeInt, Heap.readInt, Heap.intOrZero, Heap.intAt,
      Option.map_some', Option.getD_some, getD_append_left _ _ _ _ hp]
    rw [List.set_append]
    simp

theorem copy_eq (h : Heap) (tx : ComboTx) (hv : tx.Valid h) :
    tx.copy h = .returns (copyHeap h tx, copyStruct h tx) := by
  obtain ⟨-, -, hg, -, -, -, hval, -, hV, hR, hS, -, -⟩ := hv
  cases h with
  | mk ints addrs hashes bytes =>
  have e : ∀ (a : List common.Address) (b : List (List Byte)),
      setCell (setCell (setCell (setCell (setCell
        ⟨ints ++ [0, 0, 0, 0, 0], a, hashes, b⟩ (ints.length + 0) tx.Value)
        (ints.length + 1) tx.GasPrice) (ints.length + 2) tx.V) (ints.length + 3) tx.R)
        (ints.length + 4) tx.S =
      ⟨ints ++ [Heap.intOrZero ⟨ints, addrs, hashes, bytes⟩ tx.Value,
        Heap.intOrZero ⟨ints, addrs, hashes, bytes⟩ tx.GasPrice,
        Heap.intOrZero ⟨ints, addrs, hashes, bytes⟩ tx.V,
        Heap.intOrZero ⟨ints, addrs, hashes, bytes⟩ tx.R,
        Heap.intOrZero ⟨ints, addrs, hashes, bytes⟩ tx.S], a, hashes, b⟩ := by
    intro a b
    rw [setCell_fresh a hashes b ints _ 0 tx.Value ?_ hval]
    rw [setCell_fresh a hashes b ints _ 1 tx.GasPrice ?_ hg]
    rw [setCell_fresh a hashes b ints _ 2 tx.V ?_ hV]
    rw [setCell_fresh a hashes b ints _ 3 tx.R ?_ hR]
    rw [setCell_fresh a hashes b ints _ 4 tx.S ?_ hS]
    all_goals rfl
  simp only [ComboTx.copy, copyAddressPtr, common.CopyBytes, big.newInt, setIfPresent_some,
    bind, Outcome.bind, pure]
  cases hTo : tx.To <;> cases hData : tx.Data <;>
  · simp only [copyHeap, copyStruct, Heap.addrAt, Heap.sliceAt, hTo, hData]
    simp only [List.append_assoc, List.cons_append, List.nil_append, List.length_append,
      List.length_singleton, List.length_cons, List.length_nil, Nat.add_assoc, Nat.reduceAdd,
      Nat.add_zero, Nat.zero_add] at e ⊢
    rw [e]
    simp [Heap.readSlice]

/-! ## Reading the heap `copy` leaves behind -/

theorem getD_append_right {α : Type} (l r : List α) (k : Nat) (d : α) :
    (l ++ r).getD (l.length + k) d = r.getD k d := by
  simp [List.getD_eq_getElem?_getD, List.getElem?_append_right]

theorem intAt_copyHeap_old (h : Heap) (tx : ComboTx) (p : Option Ptr)
    (hp : okPtr h.ints.length p) : (copyHeap h tx).intAt p = h.intAt p := by
  cases p with
  | none => rfl
  | some q =>
    have hq : q < h.ints.length := hp
    simp [Heap.intAt, Heap.readInt, copyHeap, List.getElem?_append_left hq]

theorem addrAt_copyHeap_old (h : Heap) (tx : ComboTx) (p : Option Ptr)
    (hp : okPtr h.addrs.length p) : (copyHeap h tx).addrAt p = h.addrAt p := by
  cases p with
  | none => rfl
  | some q =>
    have hq : q < h.addrs.length := hp
    simp [Heap.addrAt, Heap.readAddr, copyHeap, List.getElem?_append_left hq]

theorem hashAt_copyHeap_old (h : Heap) (tx : ComboTx) (p : Option Ptr) :
    (copyHeap h tx).hashAt p = h.hashAt p := rfl

theorem sliceAt_copyHeap_old (h : Heap) (tx : ComboTx) (s : Option Slice)
    (hs : h.okSlice s) : (copyHeap h tx).sliceAt s = h.sliceAt s := by
  cases s with
  | none => rfl
  | some t =>
    have ht : t.arr < h.bytes.length := hs.1
    simp [Heap.sliceAt, Heap.readSlice, copyHeap, List.getElem?_append_left ht]

/-- Running `copy` changes nothing that can be read through the original. -/
theorem contents_copyHeap (h : Heap) (tx : ComboTx) (hv : tx.Valid h) :
    tx.contents (copyHeap h tx) = tx.contents h := by
  obtain ⟨-, hF, hg, -, hI, hT, hval, hD, hV, hR, hS, -, hM⟩ := hv
  simp only [ComboTx.contents, hashAt_copyHeap_old, intAt_copyHeap_old _ _ _ hg,
    intAt_copyHeap_old _ _ _ hval, intAt_copyHeap_old _ _ _ hV, intAt_copyHeap_old _ _ _ hR,
    intAt_copyHeap_old _ _ _ hS, intAt_copyHeap_old _ _ _ hM, addrAt_copyHeap_old _ _ _ hF,
    addrAt_copyHeap_old _ _ _ hT, sliceAt_copyHeap_old _ _ _ hI, sliceAt_copyHeap_old _ _ _ hD]

/-- The five fresh big integers of the copy hold the source's numbers, zero
for a nil source. -/
theorem intAt_copyHeap_new (h : Heap) (tx : ComboTx) :
    (copyHeap h tx).intAt (copyStruct h tx).Value = some (h.intOrZero tx.Value) ∧
    (copyHeap h tx).intAt (copyStruct h tx).GasPrice = some (h.intOrZero tx.GasPrice) ∧
    (copyHeap h tx).intAt (copyStruct h tx).V = some (h.intOrZero tx.V) ∧
    (copyHeap h tx).intAt (copyStruct h tx).R = some (h.intOrZero tx.R) ∧
    (copyHeap h tx).intAt (copyStruct h tx).S = some (h.intOrZero tx.S) := by
  have e0 := getD_append_right h.ints [h.intOrZero tx.Value, h.intOrZero tx.GasPrice,
    h.intOrZero tx.V, h.intOrZero tx.R, h.intOrZero tx.S] 0 0
  have e1 := getD_append_right h.ints [h.intOrZero tx.Value, h.intOrZero tx.GasPrice,
    h.intOrZero tx.V, h.intOrZero tx.R, h.intOrZero tx.S] 1 0
  have e2 := getD_append_right h.ints [h.intOrZero tx.Value, h.intOrZero tx.GasPrice,
    h.intOrZero tx.V, h.intOrZero tx.R, h.intOrZero tx.S] 2 0
  have e3 := getD_append_right h.ints [h.intOrZero tx.Value, h.intOrZero tx.GasPrice,
    h.intOrZero tx.V, h.intOrZero tx.R, h.intOrZero tx.S] 3 0
  have e4 := getD_append_right h.ints [h.intOrZero tx.Value, h.intOrZero tx.GasPrice,
    h.intOrZero tx.V, h.intOrZero tx.R, h.intOrZero tx.S] 4 0
  simp only [Nat.add_zero] at e0
  refine ⟨?_, ?_, ?_, ?_, ?_⟩
  · exact congrArg some e0
  · exact congrArg some e1
  · exact congrArg some e2
  · exact congrArg some e3
  · exact congrArg some e4

/-- The copy's address is the original's. -/
theorem addrAt_copyHeap_new (h : Heap) (tx : ComboTx) :
    (copyHeap h tx).addrAt (copyStruct h tx).To = h.addrAt tx.To := by
  cases hTo : tx.To with
  | none => simp [copyStruct, Heap.addrAt, hTo]
  | some q =>
    have e := getD_append_right h.addrs [h.readAddr q] 0 0
    simp only [Nat.add_zero] at e
    simp only [copyStruct, copyHeap, Heap.addrAt, hTo, Option.map_some', Option.toList_some,
      Heap.readAddr]
    exact congrArg some e

/-- The copy's payload shows the bytes of the original's. -/
theorem sliceAt_copyHeap_new (h : Heap) (tx : ComboTx) (hv : h.okSlice tx.Data) :
    (copyHeap h tx).sliceAt (copyStruct h tx).Data = h.sliceAt tx.Data := by
  cases hD : tx.Data with
  | none => simp [copyStruct, Heap.sliceAt, hD]
  | some s =>
    have e := getD_append_right h.bytes [h.readSlice s] 0 []
    simp only [Nat.add_zero] at e
    rw [hD] at hv
    have hlen : (h.readSlice s).length = s.len := by
      have h2 := hv.2
      simp only [Heap.readSlice, List.length_take, List.length_drop]
      omega
    simp only [copyStruct, copyHeap, Heap.sliceAt, hD, Option.map_some', Option.toList_some]
    congr 1
    show List.take s.len (List.drop 0 ((h.bytes ++ [h.readSlice s]).getD h.bytes.length [])) = _
    rw [e, List.drop_zero, ← hlen]
    exact List.take_length _

/-! ## `copy` on arbitrary pointers -/

/-- On every heap and every transaction `copy` returns, and what it returns is
the struct `copyStruct` on the heap `copyFill`. -/
theorem copy_returns (h : Heap) (tx : ComboTx) :
    tx.copy h = .returns (copyFill h tx, copyStruct h tx) := by
  cases h with
  | mk ints addrs hashes bytes =>
  simp only [ComboTx.copy, copyAddressPtr, common.CopyBytes, big.newInt, setIfPresent_some,
    bind, Outcome.bind, pure]
  cases hTo : tx.To <;> cases hData : tx.Data <;>
  · simp only [copyFill, copyAlloc, copyStruct, Heap.addrAt, Heap.sliceAt, hTo, hData]
    simp [List.length_append, Nat.add_assoc, Heap.readSlice]

theorem readInt_setCell_ne (h : Heap) (d q : Ptr) (src : Option Ptr) (hne : d ≠ q) :
    (setCell h d src).readInt q = h.readInt q := by
  cases src with
  | none => rfl
  | some p =>
    simp [setCell, Heap.writeInt, Heap.readInt, List.getElem?_set, hne]

theorem readInt_copyAlloc_new (h : Heap) (tx : ComboTx) (k : Nat) :
    (copyAlloc h tx).readInt (h.ints.length + k) = 0 := by
  unfold Heap.readInt copyAlloc
  rw [getD_append_right]
  match k with
  | 0 | 1 | 2 | 3 | 4 => rfl
  | k + 5 => rfl

/-- Writing the `j`-th fresh cell leaves the `k`-th alone. -/
theorem readInt_setCell_other (h : Heap) (n j k : Nat) (src : Option Ptr) (hjk : j ≠ k) :
    (setCell h (n + j) src).readInt (n + k) = h.readInt (n + k) :=
  readInt_setCell_ne h (n + j) (n + k) src (fun e => hjk (Nat.add_left_cancel e))

/-- A fresh big integer whose source is nil still holds zero after the five
`Set` calls. -/
theorem copyFill_absent (h : Heap) (tx : ComboTx) :
    (tx.Value = none → (copyFill h tx).readInt h.ints.length = 0) ∧
    (tx.GasPrice = none → (copyFill h tx).readInt (h.ints.length + 1) = 0) ∧
    (tx.V = none → (copyFill h tx).readInt (h.ints.length + 2) = 0) ∧
    (tx.R = none → (copyFill h tx).readInt (h.ints.length + 3) = 0) ∧
    (tx.S = none → (copyFill h tx).readInt (h.ints.length + 4) = 0) := by
  refine ⟨?_, ?_, ?_, ?_, ?_⟩ <;> intro hn
  · show (setCell (setCell (setCell (setCell (setCell (copyAlloc h tx) (h.ints.length + 0) tx.Value) (h.ints.length + 1) tx.GasPrice) (h.ints.length + 2) tx.V) (h.ints.length + 3) tx.R) (h.ints.length + 4) tx.S).readInt
        (h.ints.length + 0) = 0
    rw [readInt_setCell_other _ _ 4 0 _ (by decide), readInt_setCell_other _ _ 3 0 _ (by decide), readInt_setCell_other _ _ 2 0 _ (by decide), readInt_setCell_other _ _ 1 0 _ (by decide)]
    rw [hn]
    show (copyAlloc h tx).readInt
        (h.ints.length + 0) = 0
    exact readInt_copyAlloc_new h tx 0
  · show (setCell (setCell (setCell (setCell (setCell (copyAlloc h tx) (h.ints.length + 0) tx.Value) (h.ints.length + 1) tx.GasPrice) (h.ints.length + 2) tx.V) (h.ints.length + 3) tx.R) (h.ints.length + 4) tx.S).readInt
        (h.ints.length + 1) = 0
    rw [readInt_setCell_other _ _ 4 1 _ (by decide), readInt_setCell_other _ _ 3 1 _ (by decide), readInt_setCell_other _ _ 2 1 _ (by decide)]
    rw [hn]
    show (setCell (copyAlloc h tx) (h.ints.length + 0) tx.Value).readInt
        (h.ints.length + 1) = 0
    rw [readInt_setCell_other _ _ 0 1 _ (by decide)]
    exact readInt_copyAlloc_new h tx 1
  · show (setCell (setCell (setCell (setCell (setCell (copyAlloc h tx) (h.ints.length + 0) tx.Value) (h.ints.length + 1) tx.GasPrice) (h.ints.length + 2) tx.V) (h.ints.length + 3) tx.R) (h.ints.length + 4) tx.S).readInt
        (h.ints.length + 2) = 0
    rw [readInt_setCell_other _ _ 4 2 _ (by decide), readInt_setCell_other _ _ 3 2 _ (by decide)]
    rw [hn]
    show (setCell (setCell (copyAlloc h tx) (h.ints.length + 0) tx.Value) (h.ints.length + 1) tx.GasPrice).readInt
        (h.ints.length + 2) = 0
    rw [readInt_setCell_other _ _ 1 2 _ (by decide), readInt_setCell_other _ _ 0 2 _ (by decide)]
    exact readInt_copyAlloc_new h tx 2
  · show (setCell (setCell (setCell (setCell (setCell (copyAlloc h tx) (h.ints.length + 0) tx.Value) (h.ints.length + 1) tx.GasPrice) (h.ints.length + 2) tx.V) (h.ints.length + 3) tx.R) (h.ints.length + 4) tx.S).readInt
        (h.ints.length + 3) = 0
    rw [readInt_setCell_other _ _ 4 3 _ (by decide)]
    rw [hn]
    show (setCell (setCell (setCell (copyAlloc h tx) (h.ints.length + 0) tx.Value) (h.ints.length + 1) tx.GasPrice) (h.ints.length + 2) tx.V).readInt
        (h.ints.length + 3) = 0
    rw [readInt_setCell_other _ _ 2 3 _ (by decide), readInt_setCell_other _ _ 1 3 _ (by decide), readInt_setCell_other _ _ 0 3 _ (by decide)]
    exact readInt_copyAlloc_new h tx 3
  · show (setCell (setCell (setCell (setCell (setCell (copyAlloc h tx) (h.ints.length + 0) tx.Value) (h.ints.length + 1) tx.GasPrice) (h.ints.length + 2) tx.V) (h.ints.length + 3) tx.R) (h.ints.length + 4) tx.S).readInt
        (h.ints.length + 4) = 0
    rw [hn]
    show (setCell (setCell (setCell (setCell (copyAlloc h tx) (h.ints.length + 0) tx.Value) (h.ints.length + 1) tx.GasPrice) (h.ints.length + 2) tx.V) (h.ints.length + 3) tx.R).readInt
        (h.ints.length + 4) = 0
    rw [readInt_setCell_other _ _ 3 4 _ (by decide), readInt_setCell_other _ _ 2 4 _ (by decide), readInt_setCell_other _ _ 1 4 _ (by decide), readInt_setCell_other _ _ 0 4 _ (by decide)]
    exact readInt_copyAlloc_new h tx 4

/-! ## In-place mutation -/

theorem intAt_writeInt_ne (h : Heap) (p : Ptr) (v : Int) (x : Option Ptr)
    (hne : ∀ q, x = some q → p ≠ q) : (h.writeInt p v).intAt x = h.intAt x := by
  cases x with
  | none => rfl
  | some q =>
    have hq := hne q rfl
    simp [Heap.intAt, Heap.readInt, Heap.writeInt, List.getElem?_set, hq]

theorem addrAt_writeAddr_ne (h : Heap) (p : Ptr) (a : common.Address) (x : Option Ptr)
    (hne : ∀ q, x = some q → p ≠ q) : (h.writeAddr p a).addrAt x = h.addrAt x := by
  cases x with
  | none => rfl
  | some q =>
    have hq := hne q rfl
    simp [Heap.addrAt, Heap.readAddr, Heap.writeAddr, List.getElem?_set, hq]

theorem sliceAt_writeByte_ne (h : Heap) (s : Slice) (i : Nat) (b : Byte) (x : Option Slice)
    (hne : ∀ t, x = some t → s.arr ≠ t.arr) : (h.writeByte s i b).sliceAt x = h.sliceAt x := by
  cases x with
  | none => rfl
  | some t =>
    have ht := hne t rfl
    simp [Heap.sliceAt, Heap.readSlice, Heap.writeByte, List.getElem?_set, ht]

/-- A pointer below the mark differs from every address at or above it. -/
theorem okPtr_ne (n : Nat) (x : Option Ptr) (p : Ptr) (hx : okPtr n x) (hp : n ≤ p) :
    ∀ q, x = some q → p ≠ q := by
  intro q hq e
  subst hq
  have hlt : q < n := hx
  exact absurd (e ▸ hp) (Nat.not_le_of_lt hlt)

theorem readInt_writeInt_same (h : Heap) (d : Ptr) (v : Int) (hd : d < h.ints.length) :
    (h.writeInt d v).readInt d = v := by
  simp [Heap.readInt, Heap.writeInt, List.getElem?_set, hd]

theorem readInt_writeInt_ne (h : Heap) (d q : Ptr) (v : Int) (hne : d ≠ q) :
    (h.writeInt d v).readInt q = h.readInt q := by
  simp [Heap.readInt, Heap.writeInt, List.getElem?_set, hne]

theorem writeInt_writeInt (h : Heap) (d : Ptr) (v w : Int) :
    (h.writeInt d v).writeInt d w = h.writeInt d w := by
  simp [Heap.writeInt, List.set_set]

/-- A write to a big integer allocated after `tx` was built is not seen
through `tx`. -/
theorem contents_writeInt_above (h h' : Heap) (tx : ComboTx) (hv : tx.Valid h) (p : Ptr)
    (v : Int) (hp : h.ints.length ≤ p) : tx.contents (h'.writeInt p v) = tx.contents h' := by
  obtain ⟨-, -, hg, -, -, -, hval, -, hV, hR, hS, -, hM⟩ := hv
  simp only [ComboTx.contents]
  rw [intAt_writeInt_ne h' p v _ (okPtr_ne _ _ _ hg hp),
    intAt_writeInt_ne h' p v _ (okPtr_ne _ _ _ hval hp),
    intAt_writeInt_ne h' p v _ (okPtr_ne _ _ _ hV hp),
    intAt_writeInt_ne h' p v _ (okPtr_ne _ _ _ hR hp),
    intAt_writeInt_ne h' p v _ (okPtr_ne _ _ _ hS hp),
    intAt_writeInt_ne h' p v _ (okPtr_ne _ _ _ hM hp)]
  rfl

/-- A write to an address allocated after `tx` was built is not seen through
`tx`. -/
theorem contents_writeAddr_above (h h' : Heap) (tx : ComboTx) (hv : tx.Valid h) (p : Ptr)
    (a : common.Address) (hp : h.addrs.length ≤ p) :
    tx.contents (h'.writeAddr p a) = tx.contents h' := by
  obtain ⟨-, hF, -, -, -, hT, -, -, -, -, -, -, -⟩ := hv
  simp only [ComboTx.contents]
  rw [addrAt_writeAddr_ne h' p a _ (okPtr_ne _ _ _ hF hp),
    addrAt_writeAddr_ne h' p a _ (okPtr_ne _ _ _ hT hp)]
  rfl

/-- A write into a byte array allocated after `tx` was built is not seen
through `tx`. -/
theorem contents_writeByte_above (h h' : Heap) (tx : ComboTx) (hv : tx.Valid h) (s : Slice)
    (i : Nat) (b : Byte) (hs : h.bytes.length ≤ s.arr) :
    tx.contents (h'.writeByte s i b) = tx.contents h' := by
  obtain ⟨-, -, -, -, hI, -, -, hD, -, -, -, -, -⟩ := hv
  have sep : ∀ x : Option Slice, h.okSlice x → ∀ t, x = some t → s.arr ≠ t.arr := by
    intro x hx t ht e
    subst ht
    have hlt : t.arr < h.bytes.length := hx.1
    exact absurd (e ▸ hs) (Nat.not_le_of_lt hlt)
  simp only [ComboTx.contents]
  rw [sliceAt_writeByte_ne h' s i b _ (sep _ hI), sliceAt_writeByte_ne h' s i b _ (sep _ hD)]
  rfl

/-- A write to storage that existed before the call is not seen through the
struct `copy` returns. -/
theorem contents_copyStruct_writeInt (h h' : Heap) (tx : ComboTx) (p : Ptr) (v : Int)
    (hp : p < h.ints.length) :
    (copyStruct h tx).contents (h'.writeInt p v) = (copyStruct h tx).contents h' := by
  have sep : ∀ k q : Nat, some (h.ints.length + k) = some q → p ≠ q := by
    intro k q hq e
    cases hq
    have hlt : h.ints.length + k < h.ints.length := e ▸ hp
    exact absurd (Nat.le_add_right _ _) (Nat.not_le_of_lt hlt)
  simp only [ComboTx.contents, copyStruct]
  rw [intAt_writeInt_ne h' p v (some h.ints.length) (sep 0), intAt_writeInt_ne h' p v _ (sep 1),
    intAt_writeInt_ne h' p v _ (sep 2), intAt_writeInt_ne h' p v _ (sep 3),
    intAt_writeInt_ne h' p v _ (sep 4)]
  rfl

theorem contents_copyStruct_writeAddr (h h' : Heap) (tx : ComboTx) (p : Ptr)
    (a : common.Address) (hp : p < h.addrs.length) :
    (copyStruct h tx).contents (h'.writeAddr p a) = (copyStruct h tx).contents h' := by
  have sep : ∀ q, tx.To.map (fun _ => h.addrs.length) = some q → p ≠ q := by
    intro q hq e
    cases hTo : tx.To with
    | none => simp [hTo] at hq
    | some t =>
      simp only [hTo, Option.map_some', Option.some.injEq] at hq
      exact absurd (hq ▸ e ▸ hp) (Nat.lt_irrefl _)
  simp only [ComboTx.contents, copyStruct]
  rw [addrAt_writeAddr_ne h' p a _ sep]
  rfl

theorem contents_copyStruct_writeByte (h h' : Heap) (tx : ComboTx) (s : Slice) (i : Nat)
    (b : Byte) (hs : s.arr < h.bytes.length) :
    (copyStruct h tx).contents (h'.writeByte s i b) = (copyStruct h tx).contents h' := by
  have sep : ∀ t, tx.Data.map (fun u => (⟨h.bytes.length, 0, u.len⟩ : Slice)) = some t →
      s.arr ≠ t.arr := by
    intro t ht e
    cases hD : tx.Data with
    | none => simp [hD] at ht
    | some u =>
      simp only [hD, Option.map_some', Option.some.injEq] at ht
      subst ht
      exact absurd (e ▸ hs) (Nat.lt_irrefl _)
  simp only [ComboTx.contents, copyStruct]
  rw [sliceAt_writeByte_ne h' s i b _ sep]
  rfl

/-! ## The copy as a transaction of its own -/

/-- The struct `copy` returns refers to allocated storage only. -/
theorem valid_copy (h : Heap) (tx : ComboTx) (hv : tx.Valid h) :
    (copyStruct h tx).Valid (copyHeap h tx) := by
  obtain ⟨-, -, -, -, -, -, -, hD, -, -, -, -, -⟩ := hv
  have hTo : okPtr (copyHeap h tx).addrs.length (copyStruct h tx).To := by
    cases e : tx.To with
    | none => simp [copyStruct, e, okPtr]
    | some q => simp [copyStruct, copyHeap, Heap.addrAt, e, okPtr]
  have hData : (copyHeap h tx).okSlice (copyStruct h tx).Data := by
    cases e : tx.Data with
    | none => simp [copyStruct, e, Heap.okSlice]
    | some s =>
      rw [e] at hD
      have h2 := hD.2
      have hlen : (h.readSlice s).length = s.len := by
        simp only [Heap.readSlice, List.length_take, List.length_drop]
        omega
      simp [copyStruct, copyHeap, Heap.sliceAt, e, Heap.okSlice, hlen]
  refine ⟨trivial, trivial, ?_, trivial, trivial, hTo, ?_, hData, ?_, ?_, ?_, trivial, trivial⟩
  · simp [copyStruct, copyHeap, okPtr]
  · simp [copyStruct, copyHeap, okPtr]
  · simp [copyStruct, copyHeap, okPtr]
  · simp [copyStruct, copyHeap, okPtr]
  · simp [copyStruct, copyHeap, okPtr]

/-- Reading the copy gives the original's contents as `Contents.copied`
transforms them. -/
theorem contents_copy (h : Heap) (tx : ComboTx) (hv : tx.Valid h) :
    (copyStruct h tx).contents (copyHeap h tx) = (tx.contents h).copied := by
  obtain ⟨-, -, -, -, -, -, -, hD, -, -, -, -, -⟩ := hv
  obtain ⟨nValue, nGasPrice, nV, nR, nS⟩ := intAt_copyHeap_new h tx
  have nTo := addrAt_copyHeap_new h tx
  have nData := sliceAt_copyHeap_new h tx hD
  simp only [ComboTx.contents, Contents.copied, Contents.mk.injEq]
  refine ⟨rfl, rfl, rfl, rfl, nGasPrice, rfl, rfl, rfl, rfl, nTo, nValue, nData, nV, nR, nS,
    rfl, rfl⟩

/-- Copying twice changes nothing more than copying once. -/
theorem copied_copied (c : Contents) : c.copied.copied = c.copied := rfl

/-- The chain id `chainID` derives from a present `V`. -/
theorem chainID_reads (h : Heap) (tx : ComboTx) (p : Ptr) (hV : tx.V = some p) :
    ∃ h' q, tx.chainID h = .returns (h', some q) ∧ h'.readInt q = chainIdOf (h.readInt p) := by
  refine ⟨_, _, rfl, ?_⟩
  have e := getD_append_right h.ints [chainIdOf (h.readInt p)] 0 0
  simp only [Nat.add_zero] at e
  rw [hV]
  show (h.ints ++ [chainIdOf (h.readInt p)]).getD h.ints.length 0 = chainIdOf (h.readInt p)
  rw [e]
  rfl

/-- The `Set` calls of `copy` touch no byte array. -/
theorem copyFill_bytes (h : Heap) (tx : ComboTx) :
    (copyFill h tx).bytes = h.bytes ++ (h.sliceAt tx.Data).toList := by
  have keep : ∀ (g : Heap) (d : Ptr) (src : Option Ptr), (setCell g d src).bytes = g.bytes := by
    intro g d src
    cases src <;> rfl
  unfold copyFill
  rw [keep, keep, keep, keep, keep]
  rfl

/-- The copy's payload shows the original's bytes, on the heap `copyFill`. -/
theorem sliceAt_copyFill_new (h : Heap) (tx : ComboTx) (hv : h.okSlice tx.Data) :
    (copyFill h tx).sliceAt (copyStruct h tx).Data = h.sliceAt tx.Data := by
  have e : ∀ s, (copyFill h tx).sliceAt s = (copyHeap h tx).sliceAt s := by
    intro s
    cases s with
    | none => rfl
    | some t =>
      simp only [Heap.sliceAt, Heap.readSlice, Option.map_some', copyFill_bytes]
      rfl
  rw [e, sliceAt_copyHeap_new h tx hv]

/-! ## Claims -/

/-- C1: for a transaction whose GasPrice, Value, V, R and S are all present,
`copy` returns a struct with the same Nonce and Gas, the same optional address
behind To, the same bytes behind Data, and with GasPrice, Value, V, R and S
present and holding the numbers of the original's; the original reads the same
before and after the call. -/
theorem copy_keeps_business_fields (h : Heap) (tx : ComboTx) (hv : tx.Valid h)
    (hGasPrice : tx.GasPrice ≠ none) (hValue : tx.Value ≠ none) (hV : tx.V ≠ none)
    (hR : tx.R ≠ none) (hS : tx.S ≠ none) :
    ∃ h' cpy, tx.copy h = .returns (h', cpy) ∧ tx.contents h' = tx.contents h ∧
      cpy.Nonce = tx.Nonce ∧ cpy.Gas = tx.Gas ∧
      h'.addrAt cpy.To = h'.addrAt tx.To ∧ h'.bytesOf cpy.Data = h'.bytesOf tx.Data ∧
      (cpy.GasPrice ≠ none ∧ h'.intAt cpy.GasPrice = h'.intAt tx.GasPrice) ∧
      (cpy.Value ≠ none ∧ h'.intAt cpy.Value = h'.intAt tx.Value) ∧
      (cpy.V ≠ none ∧ h'.intAt cpy.V = h'.intAt tx.V) ∧
      (cpy.R ≠ none ∧ h'.intAt cpy.R = h'.intAt tx.R) ∧
      (cpy.S ≠ none ∧ h'.intAt cpy.S = h'.intAt tx.S) := by
  have hv' := hv
  obtain ⟨-, -, vg, -, -, vT, vval, vD, vV, vR, vS, -, -⟩ := hv'
  obtain ⟨nValue, nGasPrice, nV, nR, nS⟩ := intAt_copyHeap_new h tx
  have present : ∀ p : Option Ptr, p ≠ none → some (h.intOrZero p) = h.intAt p := by
    intro p hp
    cases p with
    | none => exact absurd rfl hp
    | some q => rfl
  refine ⟨copyHeap h tx, copyStruct h tx, copy_eq h tx hv, contents_copyHeap h tx hv, rfl, rfl,
    ?_, ?_, ⟨?_, ?_⟩, ⟨?_, ?_⟩, ⟨?_, ?_⟩, ⟨?_, ?_⟩, ⟨?_, ?_⟩⟩
  · rw [addrAt_copyHeap_new, addrAt_copyHeap_old _ _ _ vT]
  · unfold Heap.bytesOf
    rw [sliceAt_copyHeap_new _ _ vD, sliceAt_copyHeap_old _ _ _ vD]
  · simp [copyStruct]
  · rw [nGasPrice, intAt_copyHeap_old _ _ _ vg, present _ hGasPrice]
  · simp [copyStruct]
  · rw [nValue, intAt_copyHeap_old _ _ _ vval, present _ hValue]
  · simp [copyStruct]
  · rw [nV, intAt_copyHeap_old _ _ _ vV, present _ hV]
  · simp [copyStruct]
  · rw [nR, intAt_copyHeap_old _ _ _ vR, present _ hR]
  · simp [copyStruct]
  · rw [nS, intAt_copyHeap_old _ _ _ vS, present _ hS]

/-- Witness of C1 on the spec's scenario: the copy has Nonce 5, Gas 21000,
GasPrice 10, Value 100, V 37, R 1, S 2, the address 7 and the bytes 1, 2, 3. -/
theorem copy_keeps_business_fields_witness :
    scenarioTx.Valid scenarioHeap ∧
    ∃ h' cpy, scenarioTx.copy scenarioHeap = .returns (h', cpy) ∧
      cpy.Nonce = 5 ∧ cpy.Gas = 21000 ∧ h'.addrAt cpy.To = some 7 ∧
      h'.bytesOf cpy.Data = [1, 2, 3] ∧ h'.intAt cpy.GasPrice = some 10 ∧
      h'.intAt cpy.Value = some 100 ∧ h'.intAt cpy.V = some 37 ∧
      h'.intAt cpy.R = some 1 ∧ h'.intAt cpy.S = some 2 := by
  refine ⟨by decide, ?_⟩
  obtain ⟨h', cpy, hc, hsame, hn, hgas, hto, hdata, ⟨-, e1⟩, ⟨-, e2⟩, ⟨-, e3⟩, ⟨-, e4⟩, ⟨-, e5⟩⟩ :=
    copy_keeps_business_fields scenarioHeap scenarioTx (by decide) (by decide) (by decide)
      (by decide) (by decide) (by decide)
  have c : scenarioTx.contents scenarioHeap =
      { BlockHash := none, BlockNumber := 0, From := none, Nonce := 5, GasPrice := some 10,
        Gas := 21000, Hash := none, Input := none, TransactionIndex := 0, To := some 7,
        Value := some 100, Data := some [1, 2, 3], V := some 37, R := some 1, S := some 2,
        SourceHash := none, Mint := none } := by decide
  rw [c] at hsame
  simp only [ComboTx.contents, Contents.mk.injEq] at hsame
  obtain ⟨-, -, -, -, s5, -, -, -, -, s10, s11, s12, s13, s14, s15, -, -⟩ := hsame
  refine ⟨h', cpy, hc, hn, hgas, ?_, ?_, ?_, ?_, ?_, ?_, ?_⟩
  · rw [hto, s10]
  · rw [hdata, Heap.bytesOf, s12]; rfl
  · rw [e1, s5]
  · rw [e2, s11]
  · rw [e3, s13]
  · rw [e4, s14]
  · rw [e5, s15]

/-- C2: on every heap and every transaction `copy` returns a struct whose
GasPrice, Value, V, R and S are all present, and each of the five whose source
field is nil holds zero. -/
theorem copy_absent_becomes_zero (h : Heap) (tx : ComboTx) :
    ∃ h' cpy, tx.copy h = .returns (h', cpy) ∧
      (cpy.GasPrice ≠ none ∧ cpy.Value ≠ none ∧ cpy.V ≠ none ∧ cpy.R ≠ none ∧ cpy.S ≠ none) ∧
      (tx.GasPrice = none → h'.intAt cpy.GasPrice = some 0) ∧
      (tx.Value = none → h'.intAt cpy.Value = some 0) ∧
      (tx.V = none → h'.intAt cpy.V = some 0) ∧
      (tx.R = none → h'.intAt cpy.R = some 0) ∧
      (tx.S = none → h'.intAt cpy.S = some 0) := by
  obtain ⟨aValue, aGasPrice, aV, aR, aS⟩ := copyFill_absent h tx
  refine ⟨copyFill h tx, copyStruct h tx, copy_returns h tx, ?_, ?_, ?_, ?_, ?_, ?_⟩
  · simp [copyStruct]
  · exact fun hn => congrArg some (aGasPrice hn)
  · exact fun hn => congrArg some (aValue hn)
  · exact fun hn => congrArg some (aV hn)
  · exact fun hn => congrArg some (aR hn)
  · exact fun hn => congrArg some (aS hn)

/-- Witness of C2: a transaction with all five big-integer fields nil is
copied to one whose five fields are present and hold zero. -/
theorem copy_absent_becomes_zero_witness :
    ∃ h' cpy, bareTx.copy scenarioHeap = .returns (h', cpy) ∧
      h'.intAt cpy.GasPrice = some 0 ∧ h'.intAt cpy.Value = some 0 ∧
      h'.intAt cpy.V = some 0 ∧ h'.intAt cpy.R = some 0 ∧ h'.intAt cpy.S = some 0 := by
  obtain ⟨h', cpy, hc, -, zg, zval, zV, zR, zS⟩ := copy_absent_becomes_zero scenarioHeap bareTx
  exact ⟨h', cpy, hc, zg rfl, zval rfl, zV rfl, zR rfl, zS rfl⟩

/-- C3: on every heap and every transaction `copy` returns a struct whose
BlockHash, From, Hash, SourceHash and Mint are nil and whose BlockNumber and
TransactionIndex are 0, whatever the original holds there. -/
theorem copy_drops_provenance (h : Heap) (tx : ComboTx) :
    ∃ h' cpy, tx.copy h = .returns (h', cpy) ∧
      cpy.BlockHash = none ∧ cpy.From = none ∧ cpy.Hash = none ∧ cpy.SourceHash = none ∧
      cpy.Mint = none ∧ cpy.BlockNumber = 0 ∧ cpy.TransactionIndex = 0 :=
  ⟨copyFill h tx, copyStruct h tx, copy_returns h tx, rfl, rfl, rfl, rfl, rfl, rfl, rfl⟩

/-- C4: the struct `copy` returns shares no storage with the original.  After
the call, changing in place a big integer, the address or a payload byte
reached through the copy changes nothing that can be read through the
original, and changing in place a big integer, an address or a byte reached
through the original changes nothing that can be read through the copy. -/
theorem copy_shares_nothing (h : Heap) (tx : ComboTx) (hv : tx.Valid h) :
    ∃ h' cpy, tx.copy h = .returns (h', cpy) ∧
      (∀ p v, some p ∈ [cpy.GasPrice, cpy.Value, cpy.V, cpy.R, cpy.S] →
        tx.contents (h'.writeInt p v) = tx.contents h') ∧
      (∀ p a, cpy.To = some p → tx.contents (h'.writeAddr p a) = tx.contents h') ∧
      (∀ s i b, cpy.Data = some s → i < s.len →
        tx.contents (h'.writeByte s i b) = tx.contents h') ∧
      (∀ p v, some p ∈ [tx.GasPrice, tx.Value, tx.V, tx.R, tx.S, tx.Mint] →
        cpy.contents (h'.writeInt p v) = cpy.contents h') ∧
      (∀ p a, some p ∈ [tx.To, tx.From] →
        cpy.contents (h'.writeAddr p a) = cpy.contents h') ∧
      (∀ s i b, some s ∈ [tx.Data, tx.Input] → i < s.len →
        cpy.contents (h'.writeByte s i b) = cpy.contents h') := by
  have hv' := hv
  obtain ⟨-, hF, hg, -, hI, hT, hval, hD, hV, hR, hS, -, hM⟩ := hv'
  refine ⟨copyHeap h tx, copyStruct h tx, copy_eq h tx hv, ?_, ?_, ?_, ?_, ?_, ?_⟩
  · intro p v hp
    apply contents_writeInt_above h _ tx hv
    simp only [copyStruct, List.mem_cons, Option.some.injEq, List.mem_singleton,
      List.not_mem_nil, or_false] at hp
    rcases hp with e | e | e | e | e <;> rw [e] <;> exact Nat.le_add_right _ _
  · intro p a hp
    apply contents_writeAddr_above h _ tx hv
    cases hTo : tx.To with
    | none => simp [copyStruct, hTo] at hp
    | some t =>
      simp only [copyStruct, hTo, Option.map_some', Option.some.injEq] at hp
      exact Nat.le_of_eq hp
  · intro s i b hs _
    apply contents_writeByte_above h _ tx hv
    cases hData : tx.Data with
    | none => simp [copyStruct, hData] at hs
    | some t =>
      simp only [copyStruct, hData, Option.map_some', Option.some.injEq] at hs
      rw [← hs]
  · intro p v hp
    apply contents_copyStruct_writeInt
    simp only [List.mem_cons, List.mem_singleton, List.not_mem_nil, or_false] at hp
    rcases hp with e | e | e | e | e | e
    · rw [← e] at hg; exact hg
    · rw [← e] at hval; exact hval
    · rw [← e] at hV; exact hV
    · rw [← e] at hR; exact hR
    · rw [← e] at hS; exact hS
    · rw [← e] at hM; exact hM
  · intro p a hp
    apply contents_copyStruct_writeAddr
    simp only [List.mem_cons, List.mem_singleton, List.not_mem_nil, or_false] at hp
    rcases hp with e | e
    · rw [← e] at hT; exact hT
    · rw [← e] at hF; exact hF
  · intro s i b hs _
    apply contents_copyStruct_writeByte
    simp only [List.mem_cons, List.mem_singleton, List.not_mem_nil, or_false] at hs
    rcases hs with e | e
    · rw [← e] at hD; exact hD.1
    · rw [← e] at hI; exact hI.1

/-- Witness of C4 on the spec's scenario. -/
theorem copy_shares_nothing_witness :
    scenarioTx.Valid scenarioHeap ∧
    ∃ h' cpy, scenarioTx.copy scenarioHeap = .returns (h', cpy) ∧
      (∀ p v, some p ∈ [cpy.GasPrice, cpy.Value, cpy.V, cpy.R, cpy.S] →
        scenarioTx.contents (h'.writeInt p v) = scenarioTx.contents h') ∧
      (∀ p a, cpy.To = some p →
        scenarioTx.contents (h'.writeAddr p a) = scenarioTx.contents h') ∧
      (∀ s i b, cpy.Data = some s → i < s.len →
        scenarioTx.contents (h'.writeByte s i b) = scenarioTx.contents h') ∧
      (∀ p v, some p ∈ [scenarioTx.GasPrice, scenarioTx.Value, scenarioTx.V, scenarioTx.R,
          scenarioTx.S, scenarioTx.Mint] →
        cpy.contents (h'.writeInt p v) = cpy.contents h') ∧
      (∀ p a, some p ∈ [scenarioTx.To, scenarioTx.From] →
        cpy.contents (h'.writeAddr p a) = cpy.contents h') ∧
      (∀ s i b, some s ∈ [scenarioTx.Data, scenarioTx.Input] → i < s.len →
        cpy.contents (h'.writeByte s i b) = cpy.contents h') :=
  ⟨by decide, copy_shares_nothing scenarioHeap scenarioTx (by decide)⟩

/-- C5: on every transaction, every buffer and every input, `encode` and
`decode` panic; neither returns an error value, nil or not. -/
theorem encode_decode_panic (tx : ComboTx) (w input : Option (List Byte)) :
    tx.encode w = .panics "encode called on ComboTx" ∧
    tx.decode input = .panics "decode called on ComboTx)" ∧
    (∀ e : GoError, tx.encode w ≠ .returns e) ∧
    (∀ e : GoError, tx.decode input ≠ .returns e) :=
  ⟨rfl, rfl, fun _ hc => Outcome.noConfusion hc, fun _ hc => Outcome.noConfusion hc⟩

/-- C6: when `V` holds `35 + 2 * c` or `36 + 2 * c` for a chain id `c ≥ 0`,
`chainID` returns a big integer holding `c`. -/
theorem chainID_protected (h : Heap) (tx : ComboTx) (p : Ptr) (c : Int) (hc : 0 ≤ c)
    (hV : tx.V = some p) (hp : h.readInt p = 35 + 2 * c ∨ h.readInt p = 36 + 2 * c) :
    ∃ h' q, tx.chainID h = .returns (h', some q) ∧ h'.readInt q = c := by
  refine ⟨_, _, rfl, ?_⟩
  have e := getD_append_right h.ints [chainIdOf (h.readInt p)] 0 0
  simp only [Nat.add_zero] at e
  rw [hV]
  show (h.ints ++ [chainIdOf (h.readInt p)]).getD h.ints.length 0 = c
  rw [e]
  show chainIdOf (h.readInt p) = c
  unfold chainIdOf
  rcases hp with hp | hp <;> rw [hp] <;> rw [if_pos (by omega)] <;> omega

/-- Witness of C6: the scenario has `V = 37 = 35 + 2 * 1`, chain id 1. -/
theorem chainID_protected_witness :
    ∃ h' q, scenarioTx.chainID scenarioHeap = .returns (h', some q) ∧ h'.readInt q = 1 :=
  chainID_protected scenarioHeap scenarioTx 2 1 (by decide) rfl (Or.inl (by decide))

/-- C7: when `V` holds 27 or 28, `chainID` returns a big integer holding
zero. -/
theorem chainID_legacy (h : Heap) (tx : ComboTx) (p : Ptr) (hV : tx.V = some p)
    (hp : h.readInt p = 27 ∨ h.readInt p = 28) :
    ∃ h' q, tx.chainID h = .returns (h', some q) ∧ h'.readInt q = 0 := by
  refine ⟨_, _, rfl, ?_⟩
  have e := getD_append_right h.ints [chainIdOf (h.readInt p)] 0 0
  simp only [Nat.add_zero] at e
  rw [hV]
  show (h.ints ++ [chainIdOf (h.readInt p)]).getD h.ints.length 0 = 0
  rw [e]
  show chainIdOf (h.readInt p) = 0
  unfold chainIdOf
  rcases hp with hp | hp <;> rw [hp] <;> decide

/-- Witness of C7: the scenario with `V` changed to 27. -/
theorem chainID_legacy_witness :
    ∃ h' q, scenarioTx.chainID (scenarioHeap.writeInt 2 27) = .returns (h', some q) ∧
      h'.readInt q = 0 :=
  chainID_legacy (scenarioHeap.writeInt 2 27) scenarioTx 2 rfl (Or.inl (by decide))

/-- The claim C8 fails as stated: with a nil GasPrice and an allocated
destination, `effectiveGasPrice` panics on the nil dereference in `Set`. -/
theorem effectiveGasPrice_nil_gasPrice_panics :
    noGasPriceTx.effectiveGasPrice scenarioHeap (some 1) none =
        .panics "invalid memory address or nil pointer dereference" ∧
      (noGasPriceTx.effectiveGasPrice scenarioHeap (some 1) none).isReturn = false :=
  ⟨rfl, rfl⟩

/-- C8, amended: every accessor other than `effectiveGasPrice` returns for
every transaction, whichever optional fields are nil, and returns the field it
reads; `effectiveGasPrice` returns exactly when the destination and GasPrice
are both non-nil or are the same pointer. -/
theorem accessors_return (T : Byte) (h : Heap) (tx : ComboTx) (dst baseFee : Option Ptr) :
    tx.txType T = T ∧ (tx.chainID h).isReturn = true ∧ tx.accessList = none ∧
    tx.data = tx.Data ∧ tx.gas = tx.Gas ∧ tx.gasPrice = tx.GasPrice ∧
    tx.gasTipCap = tx.GasPrice ∧ tx.gasFeeCap = tx.GasPrice ∧ tx.value = tx.Value ∧
    tx.nonce = tx.Nonce ∧ tx.to = tx.To ∧ tx.rawSignatureValues = (tx.V, tx.R, tx.S) ∧
    ((tx.effectiveGasPrice h dst baseFee).isReturn = true ↔
      (dst = tx.GasPrice ∨ (dst ≠ none ∧ tx.GasPrice ≠ none))) := by
  refine ⟨rfl, rfl, rfl, rfl, rfl, rfl, rfl, rfl, rfl, rfl, rfl, rfl, ?_⟩
  unfold ComboTx.effectiveGasPrice big.Int.Set
  by_cases e : dst = tx.GasPrice
  · simp [e, Outcome.isReturn]
  · rw [if_neg e]
    cases hd : dst <;> cases hg : tx.GasPrice <;> simp_all [Outcome.isReturn]

/-- C9: with GasPrice present and an allocated destination, whatever the base
fee, `effectiveGasPrice` returns the destination, now holding the number of
GasPrice, and leaves GasPrice as it was; the outcome is the same for every
base fee and, the destination being another big integer than GasPrice, for
every number the destination held before. -/
theorem effectiveGasPrice_flat (h : Heap) (tx : ComboTx) (g d : Ptr) (baseFee : Option Ptr)
    (hg : tx.GasPrice = some g) (hd : d < h.ints.length) :
    ∃ h', tx.effectiveGasPrice h (some d) baseFee = .returns (h', some d) ∧
      h'.readInt d = h.readInt g ∧ h'.readInt g = h.readInt g ∧
      (∀ baseFee', tx.effectiveGasPrice h (some d) baseFee' =
        tx.effectiveGasPrice h (some d) baseFee) ∧
      (d ≠ g → ∀ v, tx.effectiveGasPrice (h.writeInt d v) (some d) baseFee =
        tx.effectiveGasPrice h (some d) baseFee) := by
  have same := readInt_writeInt_same h d (h.readInt g) hd
  refine ⟨h.writeInt d (h.readInt g), ?_, same, ?_, fun _ => rfl, ?_⟩
  · unfold ComboTx.effectiveGasPrice
    rw [hg, Set_some]
  · by_cases e : d = g
    · rw [← e]
      rw [← e] at same
      exact same
    · exact readInt_writeInt_ne h d g _ e
  · intro hne v
    unfold ComboTx.effectiveGasPrice
    rw [hg, Set_some, Set_some, writeInt_writeInt, readInt_writeInt_ne h d g v hne]

/-- Witness of C9 on the scenario: GasPrice is 10, the destination is the big
integer that held 100. -/
theorem effectiveGasPrice_flat_witness :
    ∃ h', scenarioTx.effectiveGasPrice scenarioHeap (some 1) none = .returns (h', some 1) ∧
      h'.readInt 1 = 10 := by
  obtain ⟨h', hr, hval, -, -, -⟩ :=
    effectiveGasPrice_flat scenarioHeap scenarioTx 0 1 none rfl (by decide)
  exact ⟨h', hr, hval⟩

/-- C10: `gasTipCap` and `gasFeeCap` return exactly what `gasPrice` returns,
the pointer `tx.GasPrice`, nil or not. -/
theorem gasTipCap_gasFeeCap_eq_gasPrice (tx : ComboTx) :
    tx.gasTipCap = tx.gasPrice ∧ tx.gasFeeCap = tx.gasPrice ∧ tx.gasPrice = tx.GasPrice :=
  ⟨rfl, rfl, rfl⟩

/-- C11: `accessList` returns the nil access list on every transaction, on
the struct `copy` returns as well, the same for any two transactions whatever
their fields. -/
theorem accessList_nil (h : Heap) (tx : ComboTx) :
    tx.accessList = none ∧
    (∃ h' cpy, tx.copy h = .returns (h', cpy) ∧ cpy.accessList = none) ∧
    (∀ tx' : ComboTx, tx'.accessList = tx.accessList) :=
  ⟨rfl, ⟨copyFill h tx, copyStruct h tx, copy_returns h tx, rfl⟩, fun _ => rfl⟩

/-- C12: after `setSignatureValues(chainID, v, r, s)` the call
`rawSignatureValues` returns exactly the pointers `(v, r, s)`, all three
replaced together, and the `chainID` argument changes nothing. -/
theorem rawSignatureValues_after_set (tx : ComboTx) (chainID v r s : Option Ptr) :
    (tx.setSignatureValues chainID v r s).rawSignatureValues = (v, r, s) ∧
    (∀ chainID' : Option Ptr,
      tx.setSignatureValues chainID' v r s = tx.setSignatureValues chainID v r s) :=
  ⟨rfl, fun _ => rfl⟩

/-- C13: `setSignatureValues` assigns V, R and S and leaves every other field
of the transaction as it was. -/
theorem setSignatureValues_frame (tx : ComboTx) (chainID v r s : Option Ptr) :
    (tx.setSignatureValues chainID v r s).BlockHash = tx.BlockHash ∧
    (tx.setSignatureValues chainID v r s).BlockNumber = tx.BlockNumber ∧
    (tx.setSignatureValues chainID v r s).From = tx.From ∧
    (tx.setSignatureValues chainID v r s).Nonce = tx.Nonce ∧
    (tx.setSignatureValues chainID v r s).GasPrice = tx.GasPrice ∧
    (tx.setSignatureValues chainID v r s).Gas = tx.Gas ∧
    (tx.setSignatureValues chainID v r s).Hash = tx.Hash ∧
    (tx.setSignatureValues chainID v r s).Input = tx.Input ∧
    (tx.setSignatureValues chainID v r s).TransactionIndex = tx.TransactionIndex ∧
    (tx.setSignatureValues chainID v r s).To = tx.To ∧
    (tx.setSignatureValues chainID v r s).Value = tx.Value ∧
    (tx.setSignatureValues chainID v r s).Data = tx.Data ∧
    (tx.setSignatureValues chainID v r s).SourceHash = tx.SourceHash ∧
    (tx.setSignatureValues chainID v r s).Mint = tx.Mint ∧
    (tx.setSignatureValues chainID v r s).V = v ∧
    (tx.setSignatureValues chainID v r s).R = r ∧
    (tx.setSignatureValues chainID v r s).S = s :=
  ⟨rfl, rfl, rfl, rfl, rfl, rfl, rfl, rfl, rfl, rfl, rfl, rfl, rfl, rfl, rfl, rfl, rfl⟩

/-- C14: for a transaction with `V` present, `chainID` on the copy returns the
same chain id as `chainID` on the original, before the copy and after it: the
one derived from the number behind `V`. -/
theorem chainID_copy (h : Heap) (tx : ComboTx) (p : Ptr) (hv : tx.Valid h)
    (hV : tx.V = some p) :
    ∃ h' cpy, tx.copy h = .returns (h', cpy) ∧
      (∃ h0 q0, tx.chainID h = .returns (h0, some q0) ∧
        h0.readInt q0 = chainIdOf (h.readInt p)) ∧
      (∃ h1 q1, tx.chainID h' = .returns (h1, some q1) ∧
        h1.readInt q1 = chainIdOf (h.readInt p)) ∧
      (∃ h2 q2, cpy.chainID h' = .returns (h2, some q2) ∧
        h2.readInt q2 = chainIdOf (h.readInt p)) := by
  have hv' := hv
  obtain ⟨-, -, -, -, -, -, -, -, vV, -, -, -, -⟩ := hv'
  obtain ⟨-, -, nV, -, -⟩ := intAt_copyHeap_new h tx
  have old : (copyHeap h tx).readInt p = h.readInt p := by
    have e := intAt_copyHeap_old h tx tx.V vV
    rw [hV] at e
    exact Option.some.inj e
  have new : (copyHeap h tx).readInt (h.ints.length + 2) = h.readInt p := by
    rw [hV] at nV
    exact Option.some.inj nV
  refine ⟨copyHeap h tx, copyStruct h tx, copy_eq h tx hv, chainID_reads h tx p hV, ?_, ?_⟩
  · obtain ⟨h1, q1, e1, v1⟩ := chainID_reads (copyHeap h tx) tx p hV
    exact ⟨h1, q1, e1, by rw [v1, old]⟩
  · obtain ⟨h2, q2, e2, v2⟩ :=
      chainID_reads (copyHeap h tx) (copyStruct h tx) (h.ints.length + 2) rfl
    exact ⟨h2, q2, e2, by rw [v2, new]⟩

/-- Witness of C14 on the spec's scenario, `V = 37`: the chain id is 1 on the
original and on the copy. -/
theorem chainID_copy_witness :
    ∃ h' cpy, scenarioTx.copy scenarioHeap = .returns (h', cpy) ∧
      (∃ h1 q1, scenarioTx.chainID h' = .returns (h1, some q1) ∧ h1.readInt q1 = 1) ∧
      (∃ h2 q2, cpy.chainID h' = .returns (h2, some q2) ∧ h2.readInt q2 = 1) := by
  obtain ⟨h', cpy, hc, -, r1, r2⟩ := chainID_copy scenarioHeap scenarioTx 2 (by decide) rfl
  have one : chainIdOf (scenarioHeap.readInt 2) = 1 := by decide
  rw [one] at r1 r2
  exact ⟨h', cpy, hc, r1, r2⟩

/-- C15: copying the copy gives a struct that reads the same as the copy in
every field, optional fields by presence and value, byte slices by content;
the first copy reads the same before and after the second call. -/
theorem copy_idempotent (h : Heap) (tx : ComboTx) (hv : tx.Valid h) :
    ∃ h1 c1 h2 c2, tx.copy h = .returns (h1, c1) ∧ c1.copy h1 = .returns (h2, c2) ∧
      c2.contents h2 = c1.contents h2 ∧ c1.contents h2 = c1.contents h1 := by
  have v1 := valid_copy h tx hv
  have first := contents_copy h tx hv
  have second := contents_copy (copyHeap h tx) (copyStruct h tx) v1
  have kept := contents_copyHeap (copyHeap h tx) (copyStruct h tx) v1
  refine ⟨copyHeap h tx, copyStruct h tx, copyHeap (copyHeap h tx) (copyStruct h tx),
    copyStruct (copyHeap h tx) (copyStruct h tx), copy_eq h tx hv, copy_eq _ _ v1, ?_, kept⟩
  rw [kept, second, first, copied_copied]

/-- Witness of C15 on an instance with provenance fields, Input and Mint
set. -/
theorem copy_idempotent_witness :
    importedTx.Valid scenarioHeap ∧
    ∃ h1 c1 h2 c2, importedTx.copy scenarioHeap = .returns (h1, c1) ∧
      c1.copy h1 = .returns (h2, c2) ∧ c2.contents h2 = c1.contents h2 ∧
      c1.contents h2 = c1.contents h1 :=
  ⟨by decide, copy_idempotent scenarioHeap importedTx (by decide)⟩

/-- C16: on every heap and every transaction, whatever its Input, `copy`
returns a struct whose Input is the nil slice, while its Data shows the bytes
of the original's Data (nil for a nil Data). -/
theorem copy_drops_input (h : Heap) (tx : ComboTx) :
    ∃ h' cpy, tx.copy h = .returns (h', cpy) ∧ cpy.Input = none ∧
      h'.bytesOf cpy.Input = [] ∧
      (h.okSlice tx.Data → h'.sliceAt cpy.Data = h.sliceAt tx.Data) :=
  ⟨copyFill h tx, copyStruct h tx, copy_returns h tx, rfl, rfl,
    fun hD => sliceAt_copyFill_new h tx hD⟩

/-- Witness of C16: the instance has the Input bytes 2, 3 and the Data bytes
1, 2, 3; its copy has a nil Input and the Data bytes 1, 2, 3. -/
theorem copy_drops_input_witness :
    scenarioHeap.bytesOf importedTx.Input = [2, 3] ∧
    ∃ h' cpy, importedTx.copy scenarioHeap = .returns (h', cpy) ∧ cpy.Input = none ∧
      h'.sliceAt cpy.Data = some [1, 2, 3] := by
  refine ⟨by decide, ?_⟩
  obtain ⟨h', cpy, hc, hI, -, hD⟩ := copy_drops_input scenarioHeap importedTx
  have d : scenarioHeap.sliceAt importedTx.Data = some [1, 2, 3] := by decide
  exact ⟨h', cpy, hc, hI, (hD (by decide)).trans d⟩

end types
